import Mathlib

/-!
Verification of the SIF assembler (`internal/pkg/build/assemblers/sif.go`).

The Go code is shallowly embedded: Go byte slices become `Option (List Nat)`
(preserving the nil / non-nil distinction that `createSIF` tests with
`data != nil`), the `map[string][]byte` of JSON objects becomes an
association list with distinct keys, and every fallible external call
(uuid generation, `os.Open`, `Stat`, `SetPartExtra`, `cryptkey.EncryptKey`,
`SetCryptoMsgExtra`, `sif.CreateContainer`, `UnloadContainer`, `os.Chown`)
is resolved by an oracle record so that the control flow of `createSIF`
can be followed exactly.  The state of the destination path is threaded
explicitly as an `Option CreateInfo` in order to reason about when the
pre-existing file is removed.
-/

namespace SifAssembler

/-- A Go byte slice: `none` models a nil slice, `some l` a non-nil slice
with contents `l`.  `createSIF` distinguishes nil from non-nil when it
tests the wrapped key with `data != nil`. -/
abbrev GoBytes := Option (List Nat)

/-- Go `len` of a byte slice (`len(nil) = 0`). -/
def goLen : GoBytes → Nat
  | none => 0
  | some l => l.length

/-- The SIF data types used by `createSIF`: `sif.DataDeffile`,
`sif.DataGenericJSON`, `sif.DataPartition`, `sif.DataCryptoMessage`. -/
inductive Datatype
  | deffile
  | genericJSON
  | partition
  | cryptoMessage
deriving DecidableEq

/-- Partition filesystem types: `sif.FsSquash` and `sif.FsEncryptedSquashfs`. -/
inductive Fstype
  | squash
  | encryptedSquashfs
deriving DecidableEq

/-- Partition type: only `sif.PartPrimSys` is used here. -/
inductive Parttype
  | primSys
deriving DecidableEq

/-- Per-datatype extra metadata attached via `SetPartExtra` or
`SetCryptoMsgExtra`. -/
inductive DescrExtra
  | unset
  | part (fstype : Fstype) (ptype : Parttype) (arch : String)
  | cryptoMsg (format : String) (message : String)
deriving DecidableEq

/-- Value of `sif.DescrDefaultGroup` (the concrete number is irrelevant,
only that every descriptor built here carries the same group). -/
def descrDefaultGroup : Nat := 1

/-- Value of `sif.DescrUnusedLink`. -/
def descrUnusedLink : Nat := 0

/-- One `sif.DescriptorInput` as populated by `createSIF`. -/
structure DescriptorInput where
  datatype : Datatype
  groupid : Nat
  link : Nat
  data : GoBytes
  fname : String
  size : Int
  extra : DescrExtra
deriving DecidableEq

/-- The `sif.CreateInfo` handed to `sif.CreateContainer`: header fields
plus the ordered descriptor list. -/
structure CreateInfo where
  pathname : String
  launchstr : String
  sifversion : String
  id : Nat
  inputDescr : List DescriptorInput
deriving DecidableEq

/-- Value of `sif.HdrLaunch`. -/
def hdrLaunch : String := "#!/usr/bin/env run-singularity\n"

/-- Value of `sif.HdrVersion`. -/
def hdrVersion : String := "01"

/-- The definition-file descriptor built from `b.Recipe.Raw`
(`Datatype: DataDeffile`, `Data: definition`,
`Size: binary.Size(Data)` which for a byte slice is its length). -/
def defFileDescr (recipe : GoBytes) : DescriptorInput :=
  { datatype := Datatype.deffile
    groupid := descrDefaultGroup
    link := descrUnusedLink
    data := recipe
    fname := ""
    size := (goLen recipe : Int)
    extra := DescrExtra.unset }

/-- A JSON metadata descriptor (`Datatype: DataGenericJSON`,
`Data: b.JSONObjects[name]`, `Fname: name`, `Size: binary.Size(Data)`). -/
def jsonDescr (name : String) (d : GoBytes) : DescriptorInput :=
  { datatype := Datatype.genericJSON
    groupid := descrDefaultGroup
    link := descrUnusedLink
    data := d
    fname := name
    size := (goLen d : Int)
    extra := DescrExtra.unset }

/-- The partition descriptor (`Datatype: DataPartition`, `Fname: squashfile`,
`Size` from `Stat`, extra set by `SetPartExtra(sifType, PartPrimSys, arch)`
where `sifType` is `FsEncryptedSquashfs` iff `encOpts != nil`). -/
def partitionDescr (fname : String) (psize : Int) (enc : Bool) (arch : String) :
    DescriptorInput :=
  { datatype := Datatype.partition
    groupid := descrDefaultGroup
    link := descrUnusedLink
    data := none
    fname := fname
    size := psize
    extra := DescrExtra.part
      (if enc then Fstype.encryptedSquashfs else Fstype.squash)
      Parttype.primSys arch }

/-- The crypto-message descriptor holding the wrapped key
(`Datatype: DataCryptoMessage`, `Link: syspartID`, `Size: len(data)`,
extra set by `SetCryptoMsgExtra(FormatPEM, MessageRSAOAEP)`). -/
def cryptoDescr (d : List Nat) (link : Nat) : DescriptorInput :=
  { datatype := Datatype.cryptoMessage
    groupid := descrDefaultGroup
    link := link
    data := some d
    fname := ""
    size := (d.length : Int)
    extra := DescrExtra.cryptoMsg "PEM" "RSA-OAEP" }

/-- Lookup in the embedded `map[string][]byte`: a missing key yields the
nil slice, as in Go. -/
def mapLookup (m : List (String × GoBytes)) (k : String) : GoBytes :=
  match m.find? (fun p => p.1 == k) with
  | some p => p.2
  | none => none

/-- The key list of `b.JSONObjects` sorted ascending, as produced by
collecting `for name := range b.JSONObjects` and calling `sort.Strings`. -/
def sortedKeys (m : List (String × GoBytes)) : List String :=
  List.insertionSort (fun a b => a ≤ b) (m.map Prod.fst)

/-- The JSON descriptors appended by the loop over the sorted names:
one descriptor per name with `len(b.JSONObjects[name]) > 0`, in sorted
order; empty blobs are skipped. -/
def jsonDescrs (m : List (String × GoBytes)) : List DescriptorInput :=
  ((sortedKeys m).filter (fun nm => decide (0 < goLen (mapLookup m nm)))).map
    (fun nm => jsonDescr nm (mapLookup m nm))

/-- The full descriptor list `cinfo.InputDescr` as assembled by
`createSIF` when every step succeeds: definition file, JSON objects,
partition, and — when `encOpts != nil` and `cryptkey.EncryptKey`
returned non-nil `data` — the crypto message, whose `Link` is
`uint32(len(cinfo.InputDescr))` at the moment the partition has just
been appended, i.e. the partition's one-based position. -/
def sifDescriptors (recipe : GoBytes) (json : List (String × GoBytes))
    (squashfile : String) (psize : Int) (enc : Bool) (wrap : GoBytes)
    (arch : String) : List DescriptorInput :=
  let ds1 := (defFileDescr recipe :: jsonDescrs json) ++
    [partitionDescr squashfile psize enc arch]
  if enc then
    match wrap with
    | none => ds1
    | some d => ds1 ++ [cryptoDescr d ds1.length]
  else ds1

/-- Decides whether the pattern occurs as a contiguous substring: this is
what `regexp.MustCompile("(singularity)").MatchString` computes, since the
pattern is a plain unanchored literal. -/
def hasSubstr (p : List Char) : List Char → Bool
  | [] => p.isEmpty
  | c :: t => p.isPrefixOf (c :: t) || hasSubstr p t

/-- The literal inside the regular expression of `changeOwner`. -/
def singularityPat : List Char := "singularity".toList

/-- Numeric value of a decimal digit character, `none` otherwise. -/
def digitVal (c : Char) : Option Nat :=
  if '0' ≤ c ∧ c ≤ '9' then some (c.toNat - '0'.toNat) else none

/-- Accumulating decimal parse of a digit string; fails on the first
non-digit character. -/
def parseDigits : List Char → Nat → Option Nat
  | [], acc => some acc
  | c :: cs, acc =>
    match digitVal c with
    | none => none
    | some d => parseDigits cs (acc * 10 + d)

/-- Go `strconv.Atoi` (that is, `ParseInt(s, 10, 0)` with 64-bit `int`):
an optional sign followed by at least one decimal digit, rejecting any
other character and any value outside `[-2^63, 2^63 - 1]`.  On any
failure Go returns a non-nil error, modelled as `none`. -/
def goAtoi (s : String) : Option Int :=
  match s.toList with
  | [] => none
  | '+' :: cs =>
    match cs with
    | [] => none
    | _ :: _ =>
      (parseDigits cs 0).bind fun n =>
        if n ≤ 2 ^ 63 - 1 then some (n : Int) else none
  | '-' :: cs =>
    match cs with
    | [] => none
    | _ :: _ =>
      (parseDigits cs 0).bind fun n =>
        if n ≤ 2 ^ 63 then some (-(n : Int)) else none
  | cs =>
    (parseDigits cs 0).bind fun n =>
      if n ≤ 2 ^ 63 - 1 then some (n : Int) else none

/-- The environment variables read by `changeOwner`; an unset variable is
the empty string, exactly as `os.Getenv` reports it. -/
structure SudoEnv where
  sudoCommand : String
  sudoUser : String
  sudoUid : String
  sudoGid : String
deriving DecidableEq

/-- The part of `changeOwner` after the `SUDO_COMMAND` pattern has
matched: checks `SUDO_USER`/`Getuid`, then emptiness of
`SUDO_UID`/`SUDO_GID` (with a warning), then `strconv.Atoi` on each
(with a warning on error).  Returns the `(uid, gid, ok)` result together
with the warnings logged on the way. -/
def ownerAfterMatch (env : SudoEnv) (getuid : Nat) :
    Option (Int × Int) × List String :=
  if env.sudoUser = "" ∨ getuid ≠ 0 then (none, [])
  else if env.sudoUid = "" ∨ env.sudoGid = "" then
    (none, ["Env vars SUDO_UID or SUDO_GID are not set, won't call chown over built SIF"])
  else
    match goAtoi env.sudoUid with
    | none => (none, ["Error while calling strconv"])
    | some uid =>
      match goAtoi env.sudoGid with
      | none => (none, ["Error while calling strconv"])
      | some gid => (some (uid, gid), [])

/-- The `changeOwner` decision procedure: first the unanchored regular
expression match of `(singularity)` against `SUDO_COMMAND`, then the
remaining checks. -/
def changeOwner (env : SudoEnv) (getuid : Nat) :
    Option (Int × Int) × List String :=
  if hasSubstr singularityPat env.sudoCommand.toList then
    ownerAfterMatch env getuid
  else (none, [])

/-- Outcomes of the external calls made by one run of `createSIF`, in
program order: `uuid.NewV4`, `os.Open` on the partition file, `Stat`,
`SetPartExtra`, `cryptkey.EncryptKey` (its `data` result keeps Go's
nil / non-nil distinction), `SetCryptoMsgExtra`, `sif.CreateContainer`,
`UnloadContainer` and `os.Chown`. -/
structure SifOracle where
  uuidResult : Option Nat
  openOk : Bool
  statResult : Option Int
  partExtraOk : Bool
  encryptKeyResult : Option GoBytes
  cryptoExtraOk : Bool
  createOk : Bool
  unloadOk : Bool
  chownOk : Bool
deriving DecidableEq

/-- The inputs of `createSIF` taken from the bundle: `b.Recipe.Raw` and
`b.JSONObjects` (an association list with distinct keys standing for the
Go map). -/
structure BundleIn where
  recipe : GoBytes
  jsonObjects : List (String × GoBytes)
deriving DecidableEq

/-- The stage at which a run of `createSIF` returned an error. -/
inductive SifError
  | idGen
  | openPart
  | statPart
  | partExtra
  | encryptKey
  | cryptoExtra
  | create
  | unload
  | chown
deriving DecidableEq

/-- The tail of `createSIF` from `os.RemoveAll(path)` on: the destination
is cleared, `sif.CreateContainer` runs (on failure nothing usable is left
at the path), `UnloadContainer` finalizes, and then the chown step runs
exactly when `changeOwner` returned `ok`; a chown failure is returned as
an error from `createSIF`. -/
def sifFinish (o : SifOracle) (env : SudoEnv) (getuid : Nat) (path : String)
    (id : Nat) (ds : List DescriptorInput) :
    Option SifError × Option CreateInfo :=
  if o.createOk = false then (some SifError.create, none)
  else
    let c : CreateInfo :=
      { pathname := path
        launchstr := hdrLaunch
        sifversion := hdrVersion
        id := id
        inputDescr := ds }
    if o.unloadOk = false then (some SifError.unload, some c)
    else
      match (changeOwner env getuid).1 with
      | none => (none, some c)
      | some _ =>
        if o.chownOk = false then (some SifError.chown, some c)
        else (none, some c)

/-- Shallow embedding of `createSIF`: same control flow, with every
external call resolved by the oracle.  `dest` is the content of the
destination path before the call; the second component of the result is
its content after the call.  Note that `os.RemoveAll(path)` runs only
after every descriptor has been built, so every earlier error returns
with `dest` untouched. -/
def createSIF (o : SifOracle) (env : SudoEnv) (getuid : Nat) (path : String)
    (b : BundleIn) (squashfile : String) (enc : Bool) (arch : String)
    (dest : Option CreateInfo) : Option SifError × Option CreateInfo :=
  match o.uuidResult with
  | none => (some SifError.idGen, dest)
  | some id =>
    if o.openOk = false then (some SifError.openPart, dest)
    else
      match o.statResult with
      | none => (some SifError.statPart, dest)
      | some psize =>
        if o.partExtraOk = false then (some SifError.partExtra, dest)
        else
          let ds1 := (defFileDescr b.recipe :: jsonDescrs b.jsonObjects) ++
            [partitionDescr squashfile psize enc arch]
          if enc then
            match o.encryptKeyResult with
            | none => (some SifError.encryptKey, dest)
            | some wrap =>
              match wrap with
              | none => sifFinish o env getuid path id ds1
              | some d =>
                if o.cryptoExtraOk = false then (some SifError.cryptoExtra, dest)
                else sifFinish o env getuid path id (ds1 ++ [cryptoDescr d ds1.length])
          else sifFinish o env getuid path id ds1

/-- The container a successful run of `createSIF` leaves at the
destination, as a function of the run's inputs alone (the `getD`
defaults are never exercised on a successful run). -/
def expectedCinfo (o : SifOracle) (path : String) (b : BundleIn)
    (squashfile : String) (enc : Bool) (arch : String) : CreateInfo :=
  { pathname := path
    launchstr := hdrLaunch
    sifversion := hdrVersion
    id := o.uuidResult.getD 0
    inputDescr := sifDescriptors b.recipe b.jsonObjects squashfile
      (o.statResult.getD 0) enc (o.encryptKeyResult.getD none) arch }

/-- The mksquashfs flag list built by `Assemble`: `-noappend` always,
`-all-root` when `syscall.Getuid() != 0`, then the optional compression,
memory and processor flags. -/
def assembleFlags (getuid : Nat) (gzipFlag : Bool) (mem : String)
    (procs : Nat) : List String :=
  let f0 := ["-noappend"]
  let f1 := if getuid ≠ 0 then f0 ++ ["-all-root"] else f0
  let f2 := if gzipFlag then f1 ++ ["-comp", "gzip"] else f1
  let f3 := if mem ≠ "" then f2 ++ ["-mem", mem] else f2
  if procs ≠ 0 then f3 ++ ["-processors", toString procs] else f3

/-- Modelled from the spec: `cryptkey.EncryptKey` (in `pkg/util/cryptkey`,
which is not under `src/`) either yields no wrapped key at all (a nil
slice, e.g. when no recipient key is configured — not an error) or a
non-empty wrapped-key blob; it never returns a non-nil zero-length
slice. -/
def wrapWellFormed (w : GoBytes) : Prop := w ≠ some []

/-- The architecture resolution in `Assemble`:
`arch := machine.ArchFromContainer(b.RootfsPath)` followed by the
fallback `if arch == "" { sylog.Infof(...); arch = runtime.GOARCH }`.
`detect` stands for `machine.ArchFromContainer` (empty string = no
recognizable tag) and `goarch` for `runtime.GOARCH`; the boolean records
whether the fallback message was reported.  The function is total:
resolution never fails. -/
def resolveArch (detect : String → String) (goarch : String) (path : String) :
    String × Bool :=
  let arch := detect path
  if arch = "" then (goarch, true) else (arch, false)

lemma mem_jsonDescrs {m : List (String × GoBytes)} {d : DescriptorInput}
    (hd : d ∈ jsonDescrs m) :
    ∃ nm, nm ∈ sortedKeys m ∧ 0 < goLen (mapLookup m nm) ∧
      d = jsonDescr nm (mapLookup m nm) := by
  simp only [jsonDescrs, List.mem_map, List.mem_filter] at hd
  rcases hd with ⟨nm, ⟨h1, h2⟩, rfl⟩
  exact ⟨nm, h1, by simpa using h2, rfl⟩

lemma jsonDescrs_datatype {m : List (String × GoBytes)} {d : DescriptorInput}
    (hd : d ∈ jsonDescrs m) : d.datatype = Datatype.genericJSON := by
  rcases mem_jsonDescrs hd with ⟨nm, _, _, rfl⟩
  rfl

lemma mapLookup_eq {m : List (String × GoBytes)} {nm : String} {blob : GoBytes}
    (h : (m.map Prod.fst).Nodup) (hmem : (nm, blob) ∈ m) :
    mapLookup m nm = blob := by
  induction m with
  | nil => cases hmem
  | cons p tl ih =>
    rcases p with ⟨k, v⟩
    simp only [List.map_cons, List.nodup_cons] at h
    rcases h with ⟨hk, htl⟩
    rcases List.mem_cons.mp hmem with heq | hmem2
    · rcases Prod.mk.injEq .. ▸ heq with ⟨rfl, rfl⟩
      simp [mapLookup, List.find?]
    · have hne : (k == nm) = false := by
        rw [beq_eq_false_iff_ne]
        intro e
        subst e
        exact hk (List.mem_map_of_mem Prod.fst hmem2)
      simpa [mapLookup, List.find?, hne] using ih htl hmem2

lemma sortedKeys_perm (m : List (String × GoBytes)) :
    (sortedKeys m).Perm (m.map Prod.fst) :=
  List.perm_insertionSort _ _

lemma sortedKeys_pairwise {m : List (String × GoBytes)}
    (h : (m.map Prod.fst).Nodup) :
    (sortedKeys m).Pairwise (fun a b => a < b) := by
  have hs : (sortedKeys m).Pairwise (fun a b : String => a ≤ b) :=
    List.sorted_insertionSort _ _
  have hn : (sortedKeys m).Nodup := (sortedKeys_perm m).nodup_iff.mpr h
  exact (hs.and hn).imp (fun hab => lt_of_le_of_ne hab.1 hab.2)

lemma jsonDescrs_pairwise {m : List (String × GoBytes)}
    (h : (m.map Prod.fst).Nodup) :
    (jsonDescrs m).Pairwise (fun d1 d2 => d1.fname < d2.fname) := by
  unfold jsonDescrs
  rw [List.pairwise_map]
  exact ((sortedKeys_pairwise h).filter _).imp (fun hab => by simpa [jsonDescr] using hab)

lemma jsonDescrs_filter_self (m : List (String × GoBytes)) :
    (jsonDescrs m).filter (fun d => d.datatype == Datatype.genericJSON) =
      jsonDescrs m :=
  List.filter_eq_self.mpr (fun d hd => by simp [jsonDescrs_datatype hd])

lemma jsonDescrs_filter_other (m : List (String × GoBytes)) {dt : Datatype}
    (hdt : dt ≠ Datatype.genericJSON) :
    (jsonDescrs m).filter (fun d => d.datatype == dt) = [] :=
  List.filter_eq_nil_iff.mpr (fun d hd => by
    simp [jsonDescrs_datatype hd, Ne.symm hdt])

lemma sifDescriptors_head (r : GoBytes) (j : List (String × GoBytes))
    (s : String) (p : Int) (e : Bool) (w : GoBytes) (a : String) :
    (sifDescriptors r j s p e w a).head? = some (defFileDescr r) := by
  cases e <;> rcases w with _ | d <;> simp [sifDescriptors]

lemma sifFinish_fst_cases (o : SifOracle) (env : SudoEnv) (u : Nat)
    (path : String) (id : Nat) (ds : List DescriptorInput) :
    (sifFinish o env u path id ds).1 = none ∨
    (sifFinish o env u path id ds).1 = some SifError.create ∨
    (sifFinish o env u path id ds).1 = some SifError.unload ∨
    (sifFinish o env u path id ds).1 = some SifError.chown := by
  rcases hco : (changeOwner env u).1 with _ | t <;>
    rcases o with ⟨ur, op, st, pe, ek, ce, cr, ul, ch⟩ <;>
    cases cr <;> cases ul <;> cases ch <;> simp [sifFinish, hco]

lemma sifFinish_success (o : SifOracle) (env : SudoEnv) (u : Nat)
    (path : String) (id : Nat) (ds : List DescriptorInput)
    (h : (sifFinish o env u path id ds).1 = none) :
    (sifFinish o env u path id ds).2 =
      some ⟨path, hdrLaunch, hdrVersion, id, ds⟩ := by
  rcases hco : (changeOwner env u).1 with _ | t <;>
    rcases o with ⟨ur, op, st, pe, ek, ce, cr, ul, ch⟩ <;>
    cases cr <;> cases ul <;> cases ch <;> simp_all [sifFinish, hco]

lemma sifFinish_chown (o : SifOracle) (env : SudoEnv) (u : Nat)
    (path : String) (id : Nat) (ds : List DescriptorInput)
    (h : (sifFinish o env u path id ds).1 = some SifError.chown) :
    (sifFinish o env u path id ds).2 =
      some ⟨path, hdrLaunch, hdrVersion, id, ds⟩ ∧
    (changeOwner env u).1 ≠ none := by
  rcases hco : (changeOwner env u).1 with _ | t <;>
    rcases o with ⟨ur, op, st, pe, ek, ce, cr, ul, ch⟩ <;>
    cases cr <;> cases ul <;> cases ch <;> simp_all [sifFinish, hco]

lemma sifFinish_no_owner (o : SifOracle) (env : SudoEnv) (u : Nat)
    (path : String) (id : Nat) (ds : List DescriptorInput)
    (hco : (changeOwner env u).1 = none) :
    (sifFinish o env u path id ds).1 ≠ some SifError.chown := by
  rcases o with ⟨ur, op, st, pe, ek, ce, cr, ul, ch⟩
  cases cr <;> cases ul <;> cases ch <;> simp [sifFinish, hco]

lemma createSIF_shape (o : SifOracle) (env : SudoEnv) (u : Nat) (path : String)
    (b : BundleIn) (sq : String) (enc : Bool) (arch : String)
    (dest : Option CreateInfo) :
    (∃ e, (e = SifError.idGen ∨ e = SifError.openPart ∨ e = SifError.statPart ∨
        e = SifError.partExtra ∨ e = SifError.encryptKey ∨
        e = SifError.cryptoExtra) ∧
      createSIF o env u path b sq enc arch dest = (some e, dest)) ∨
    (∃ id, o.uuidResult = some id ∧
      createSIF o env u path b sq enc arch dest =
        sifFinish o env u path id
          (sifDescriptors b.recipe b.jsonObjects sq (o.statResult.getD 0) enc
            (o.encryptKeyResult.getD none) arch)) := by
  rcases o with ⟨ur, op, st, pe, ek, ce, cr, ul, ch⟩
  rcases ur with _ | id
  · exact Or.inl ⟨SifError.idGen, by simp, by simp [createSIF]⟩
  rcases op with _ | _
  · exact Or.inl ⟨SifError.openPart, by simp, by simp [createSIF]⟩
  rcases st with _ | psize
  · exact Or.inl ⟨SifError.statPart, by simp, by simp [createSIF]⟩
  rcases pe with _ | _
  · exact Or.inl ⟨SifError.partExtra, by simp, by simp [createSIF]⟩
  rcases enc with _ | _
  · exact Or.inr ⟨id, rfl, by simp [createSIF, sifDescriptors]⟩
  rcases ek with _ | wrap
  · exact Or.inl ⟨SifError.encryptKey, by simp, by simp [createSIF]⟩
  rcases wrap with _ | d
  · exact Or.inr ⟨id, rfl, by simp [createSIF, sifDescriptors]⟩
  rcases ce with _ | _
  · exact Or.inl ⟨SifError.cryptoExtra, by simp, by simp [createSIF]⟩
  · exact Or.inr ⟨id, rfl, by simp [createSIF, sifDescriptors]⟩

lemma createSIF_success (o : SifOracle) (env : SudoEnv) (u : Nat) (path : String)
    (b : BundleIn) (sq : String) (enc : Bool) (arch : String)
    (dest : Option CreateInfo)
    (h : (createSIF o env u path b sq enc arch dest).1 = none) :
    (createSIF o env u path b sq enc arch dest).2 =
      some (expectedCinfo o path b sq enc arch) := by
  rcases createSIF_shape o env u path b sq enc arch dest with
    ⟨e, _, heq⟩ | ⟨id, hid, heq⟩
  · rw [heq] at h
    simp at h
  · rw [heq] at h ⊢
    rw [sifFinish_success _ env u path id _ h]
    simp [expectedCinfo, hid]

lemma createSIF_early_frame (o : SifOracle) (env : SudoEnv) (u : Nat)
    (path : String) (b : BundleIn) (sq : String) (enc : Bool) (arch : String)
    (dest : Option CreateInfo) (e : SifError)
    (h : (createSIF o env u path b sq enc arch dest).1 = some e)
    (he : e = SifError.idGen ∨ e = SifError.openPart ∨ e = SifError.statPart ∨
      e = SifError.partExtra ∨ e = SifError.encryptKey ∨
      e = SifError.cryptoExtra) :
    (createSIF o env u path b sq enc arch dest).2 = dest := by
  rcases createSIF_shape o env u path b sq enc arch dest with
    ⟨e2, _, heq⟩ | ⟨id, hid, heq⟩
  · rw [heq]
  · rw [heq] at h
    rcases he with rfl | rfl | rfl | rfl | rfl | rfl <;>
      rcases sifFinish_fst_cases o env u path id
        (sifDescriptors b.recipe b.jsonObjects sq (o.statResult.getD 0) enc
          (o.encryptKeyResult.getD none) arch) with hc | hc | hc | hc <;>
      rw [hc] at h <;> simp at h

lemma createSIF_fst_indep (o : SifOracle) (env : SudoEnv) (u : Nat)
    (path : String) (b : BundleIn) (sq : String) (enc : Bool) (arch : String)
    (dest dest2 : Option CreateInfo) :
    (createSIF o env u path b sq enc arch dest).1 =
    (createSIF o env u path b sq enc arch dest2).1 := by
  rcases o with ⟨ur, op, st, pe, ek, ce, cr, ul, ch⟩
  rcases ur with _ | id <;> cases op <;> rcases st with _ | psize <;>
    cases pe <;> cases enc <;> rcases ek with _ | (_ | d) <;> cases ce <;>
    simp [createSIF]

/-- C1: for every bundle, a run of `createSIF` that reaches the container
writer hands it a descriptor list whose first element is the definition
file descriptor, with data equal to the bundle's raw recipe bytes and
size equal to their length; this holds for every recipe, including the
empty one (zero-length data, still present). -/
theorem definition_file_first (o : SifOracle) (env : SudoEnv) (u : Nat)
    (path : String) (b : BundleIn) (sq : String) (enc : Bool) (arch : String)
    (dest : Option CreateInfo)
    (h : (createSIF o env u path b sq enc arch dest).1 = none) :
    ∃ c, (createSIF o env u path b sq enc arch dest).2 = some c ∧
      c.inputDescr.head? = some (defFileDescr b.recipe) ∧
      (defFileDescr b.recipe).datatype = Datatype.deffile ∧
      (defFileDescr b.recipe).data = b.recipe ∧
      (defFileDescr b.recipe).size = (goLen b.recipe : Int) := by
  refine ⟨expectedCinfo o path b sq enc arch,
    createSIF_success o env u path b sq enc arch dest h, ?_, rfl, rfl, rfl⟩
  simpa [expectedCinfo] using
    sifDescriptors_head b.recipe b.jsonObjects sq (o.statResult.getD 0) enc
      (o.encryptKeyResult.getD none) arch

/-- Witness for `definition_file_first` at a successful run whose recipe
is the empty byte slice. -/
theorem definition_file_first_witness :
    ∃ c, (createSIF ⟨some 7, true, some 100, true, none, true, true, true, true⟩
        ⟨"", "", "", ""⟩ 1000 "/out.sif" ⟨some [], []⟩ "sq" false "amd64"
        none).2 = some c ∧
      c.inputDescr.head? = some (defFileDescr (some [])) ∧
      (defFileDescr (some [])).datatype = Datatype.deffile ∧
      (defFileDescr (some [])).data = some [] ∧
      (defFileDescr (some [])).size = (goLen (some []) : Int) :=
  definition_file_first _ _ _ _ _ _ _ _ _ (by decide)

/-- C5: the destination is cleared only immediately before the container
write, so a failure at identifier generation, partition open, stat,
partition-extra, key wrapping or crypto-extra stage leaves the
destination exactly as it was; and a successful run leaves at the
destination a container that is a function of that run's inputs alone,
independent of whatever was there before — so a second successful build
over the same path leaves only the second build's content. -/
theorem destination_removed_late (o : SifOracle) (env : SudoEnv) (u : Nat)
    (path : String) (b : BundleIn) (sq : String) (enc : Bool) (arch : String)
    (dest dest2 : Option CreateInfo) :
    (∀ e, (createSIF o env u path b sq enc arch dest).1 = some e →
      (e = SifError.idGen ∨ e = SifError.openPart ∨ e = SifError.statPart ∨
        e = SifError.partExtra ∨ e = SifError.encryptKey ∨
        e = SifError.cryptoExtra) →
      (createSIF o env u path b sq enc arch dest).2 = dest) ∧
    ((createSIF o env u path b sq enc arch dest).1 = none →
      (createSIF o env u path b sq enc arch dest).2 =
        some (expectedCinfo o path b sq enc arch)) ∧
    ((createSIF o env u path b sq enc arch dest).1 = none →
      (createSIF o env u path b sq enc arch dest).2 =
        (createSIF o env u path b sq enc arch dest2).2) := by
  refine ⟨fun e h he => createSIF_early_frame o env u path b sq enc arch dest e h he,
    fun h => createSIF_success o env u path b sq enc arch dest h,
    fun h => ?_⟩
  have h2 : (createSIF o env u path b sq enc arch dest2).1 = none :=
    (createSIF_fst_indep o env u path b sq enc arch dest dest2).symm.trans h
  rw [createSIF_success o env u path b sq enc arch dest h,
    createSIF_success o env u path b sq enc arch dest2 h2]

/-- Witness for `destination_removed_late`: a run that fails opening the
partition file leaves the pre-existing container at the destination. -/
theorem destination_removed_late_witness :
    (createSIF ⟨some 7, false, some 100, true, none, true, true, true, true⟩
      ⟨"", "", "", ""⟩ 0 "/o.sif" ⟨some [1], []⟩ "sq" false "amd64"
      (some ⟨"/o.sif", hdrLaunch, hdrVersion, 3, []⟩)).2 =
      some ⟨"/o.sif", hdrLaunch, hdrVersion, 3, []⟩ :=
  (destination_removed_late _ _ _ _ _ _ _ _ _ none).1 SifError.openPart
    (by decide) (by decide)

/-- C4 counterexample: a run in which every step succeeds except the final
`os.Chown` returns an error from `createSIF` — the claim that an
ownership-change failure never causes the build invocation to return an
error is false on the code. -/
theorem chown_error_counterexample :
    (createSIF ⟨some 7, true, some 100, true, none, true, true, true, false⟩
      ⟨"sudo /usr/local/bin/singularity build out.sif recipe.def", "alice",
        "1000", "1000"⟩ 0 "/out.sif" ⟨some [1], []⟩ "sq" false "amd64"
      none).1 = some SifError.chown := by decide

/-- C4 as amended: failures in resolving the ownership target (pattern
mismatch, missing user, non-root, unparsable ids) are swallowed and never
produce the chown error; but when a target is resolved and the chown
syscall itself fails, `createSIF` returns an error — although the
committed artifact is left at the destination, not discarded. -/
theorem chown_failure_returns_error (o : SifOracle) (env : SudoEnv) (u : Nat)
    (path : String) (b : BundleIn) (sq : String) (enc : Bool) (arch : String)
    (dest : Option CreateInfo) :
    ((createSIF o env u path b sq enc arch dest).1 = some SifError.chown →
      (createSIF o env u path b sq enc arch dest).2 =
        some (expectedCinfo o path b sq enc arch) ∧
      (changeOwner env u).1 ≠ none) ∧
    ((changeOwner env u).1 = none →
      (createSIF o env u path b sq enc arch dest).1 ≠ some SifError.chown) := by
  constructor
  · intro h
    rcases createSIF_shape o env u path b sq enc arch dest with
      ⟨e, he, heq⟩ | ⟨id, hid, heq⟩
    · rw [heq] at h
      simp at h
      subst h
      simp_all
    · rw [heq] at h ⊢
      have hc := sifFinish_chown o env u path id _ h
      exact ⟨by rw [hc.1]; simp [expectedCinfo, hid], hc.2⟩
  · intro hco
    rcases createSIF_shape o env u path b sq enc arch dest with
      ⟨e, he, heq⟩ | ⟨id, hid, heq⟩
    · rw [heq]
      intro h
      simp at h
      subst h
      simp_all
    · rw [heq]
      exact sifFinish_no_owner o env u path id _ hco

/-- Witness for `chown_failure_returns_error` at the run of the
counterexample: the artifact is still at the destination. -/
theorem chown_failure_returns_error_witness :
    (createSIF ⟨some 7, true, some 100, true, none, true, true, true, false⟩
      ⟨"sudo /usr/local/bin/singularity build out.sif recipe.def", "alice",
        "1000", "1000"⟩ 0 "/out.sif" ⟨some [1], []⟩ "sq" false "amd64"
      none).2 =
      some (expectedCinfo
        ⟨some 7, true, some 100, true, none, true, true, true, false⟩
        "/out.sif" ⟨some [1], []⟩ "sq" false "amd64") ∧
    (changeOwner ⟨"sudo /usr/local/bin/singularity build out.sif recipe.def",
      "alice", "1000", "1000"⟩ 0).1 ≠ none :=
  (chown_failure_returns_error _ _ _ _ _ _ _ _ _).1 (by decide)

/-- C6 counterexample: two successful runs on identical bundle inputs but
distinct freshly generated identifiers leave different containers at the
destination — the per-run random identifier enters the container's
contents, so runs are not byte-for-byte identical. -/
theorem reproducibility_counterexample :
    ((createSIF ⟨some 1, true, some 100, true, none, true, true, true, true⟩
        ⟨"", "", "", ""⟩ 1000 "/o.sif" ⟨some [1], []⟩ "sq" false "amd64"
        none).1 = none) ∧
    ((createSIF ⟨some 2, true, some 100, true, none, true, true, true, true⟩
        ⟨"", "", "", ""⟩ 1000 "/o.sif" ⟨some [1], []⟩ "sq" false "amd64"
        none).1 = none) ∧
    (createSIF ⟨some 1, true, some 100, true, none, true, true, true, true⟩
        ⟨"", "", "", ""⟩ 1000 "/o.sif" ⟨some [1], []⟩ "sq" false "amd64"
        none).2 ≠
      (createSIF ⟨some 2, true, some 100, true, none, true, true, true, true⟩
        ⟨"", "", "", ""⟩ 1000 "/o.sif" ⟨some [1], []⟩ "sq" false "amd64"
        none).2 := ⟨by decide, by decide, by decide⟩

/-- C6 as amended: given identical bundle inputs, two successful runs
produce identical descriptor lists whenever their stat and key-wrap
outcomes agree (the descriptor list never depends on the generated
identifier, the ownership environment or the prior destination content),
and the full containers coincide exactly when additionally the generated
identifiers coincide. -/
theorem reproducibility_amended (o o2 : SifOracle) (env env2 : SudoEnv)
    (u u2 : Nat) (path : String) (b : BundleIn) (sq : String) (enc : Bool)
    (arch : String) (dest dest2 : Option CreateInfo)
    (hstat : o.statResult = o2.statResult)
    (hek : o.encryptKeyResult = o2.encryptKeyResult)
    (h : (createSIF o env u path b sq enc arch dest).1 = none)
    (h2 : (createSIF o2 env2 u2 path b sq enc arch dest2).1 = none) :
    (Option.map CreateInfo.inputDescr
        (createSIF o env u path b sq enc arch dest).2 =
      Option.map CreateInfo.inputDescr
        (createSIF o2 env2 u2 path b sq enc arch dest2).2) ∧
    (o.uuidResult = o2.uuidResult →
      (createSIF o env u path b sq enc arch dest).2 =
        (createSIF o2 env2 u2 path b sq enc arch dest2).2) := by
  rw [createSIF_success o env u path b sq enc arch dest h,
    createSIF_success o2 env2 u2 path b sq enc arch dest2 h2]
  constructor
  · simp [expectedCinfo, hstat, hek]
  · intro hu
    simp [expectedCinfo, hstat, hek, hu]

/-- Witness for `reproducibility_amended`: same oracle outcomes, different
ownership environment, uid and prior destination content still give the
same container. -/
theorem reproducibility_amended_witness :
    (createSIF ⟨some 9, true, some 42, true, none, true, true, true, true⟩
        ⟨"", "", "", ""⟩ 1000 "/o.sif" ⟨some [2], []⟩ "sq" false "amd64"
        none).2 =
      (createSIF ⟨some 9, true, some 42, true, none, true, true, true, true⟩
        ⟨"x", "y", "1", "2"⟩ 5 "/o.sif" ⟨some [2], []⟩ "sq" false "amd64"
        (some ⟨"/o.sif", hdrLaunch, hdrVersion, 3, []⟩)).2 :=
  (reproducibility_amended _ _ _ _ _ _ _ _ _ _ _ _ _ rfl rfl (by decide)
    (by decide)).2 rfl

/-- C2: the metadata descriptors inside the assembled list are exactly
`jsonDescrs`, they appear in strictly ascending lexicographic order of
name, every entry of the mapping with a non-empty blob contributes a
descriptor carrying exactly that blob, and entries with empty blobs
contribute no descriptor at all. -/
theorem metadata_objects_sorted (m : List (String × GoBytes))
    (hnd : (m.map Prod.fst).Nodup) (r : GoBytes) (s : String) (p : Int)
    (e : Bool) (w : GoBytes) (a : String) :
    ((sifDescriptors r m s p e w a).filter
        (fun d => d.datatype == Datatype.genericJSON) = jsonDescrs m) ∧
    (jsonDescrs m).Pairwise (fun d1 d2 => d1.fname < d2.fname) ∧
    (∀ nm blob, (nm, blob) ∈ m →
      (goLen blob = 0 → ∀ d ∈ jsonDescrs m, d.fname ≠ nm) ∧
      (0 < goLen blob → ∃ d ∈ jsonDescrs m,
        d.fname = nm ∧ d.data = blob)) := by
  refine ⟨?_, jsonDescrs_pairwise hnd, ?_⟩
  · cases e <;> rcases w with _ | d <;>
      simp [sifDescriptors, List.filter_append, List.filter_cons,
        jsonDescrs_filter_self, defFileDescr, partitionDescr, cryptoDescr]
  · intro nm blob hmem
    have hl : mapLookup m nm = blob := mapLookup_eq hnd hmem
    constructor
    · intro hz d hd
      rcases mem_jsonDescrs hd with ⟨nm2, _, hpos, rfl⟩
      intro hfn
      have hnm : nm2 = nm := hfn
      subst hnm
      rw [hl] at hpos
      omega
    · intro hpos
      have hkey : nm ∈ sortedKeys m :=
        ((sortedKeys_perm m).mem_iff).mpr (List.mem_map_of_mem Prod.fst hmem)
      refine ⟨jsonDescr nm (mapLookup m nm), ?_, rfl, by simp [jsonDescr, hl]⟩
      unfold jsonDescrs
      apply List.mem_map_of_mem
      apply List.mem_filter.mpr
      refine ⟨hkey, ?_⟩
      simp only [hl, decide_eq_true_eq]
      exact hpos

/-- Witness for `metadata_objects_sorted` at the mapping of the spec's
example: labels and env non-empty, runscript empty. -/
theorem metadata_objects_sorted_witness :
    ((sifDescriptors (some [])
        [("labels", some [1]), ("runscript", some []), ("env", some [2])]
        "sq" 5 false none "amd64").filter
        (fun d => d.datatype == Datatype.genericJSON) =
      jsonDescrs
        [("labels", some [1]), ("runscript", some []), ("env", some [2])]) ∧
    (jsonDescrs
        [("labels", some [1]), ("runscript", some []), ("env", some [2])]).Pairwise
      (fun d1 d2 => d1.fname < d2.fname) :=
  ⟨(metadata_objects_sorted _ (by decide) (some []) "sq" 5 false none
      "amd64").1,
    (metadata_objects_sorted _ (by decide) (some []) "sq" 5 false none
      "amd64").2.1⟩

lemma base_no_crypto {r : GoBytes} {m : List (String × GoBytes)} {s : String}
    {p : Int} {e2 : Bool} {a : String} {d : DescriptorInput}
    (hd : d ∈ (defFileDescr r :: jsonDescrs m) ++ [partitionDescr s p e2 a]) :
    d.datatype ≠ Datatype.cryptoMessage := by
  rcases List.mem_append.mp hd with h1 | h1
  · rcases List.mem_cons.mp h1 with rfl | h2
    · simp [defFileDescr]
    · simp [jsonDescrs_datatype h2]
  · have := List.mem_singleton.mp h1
    subst this
    simp [partitionDescr]

lemma base_partition_eq {r : GoBytes} {m : List (String × GoBytes)}
    {s : String} {p : Int} {e2 : Bool} {a : String} {d : DescriptorInput}
    (hd : d ∈ (defFileDescr r :: jsonDescrs m) ++ [partitionDescr s p e2 a])
    (hdt : d.datatype = Datatype.partition) :
    d = partitionDescr s p e2 a := by
  rcases List.mem_append.mp hd with h1 | h1
  · rcases List.mem_cons.mp h1 with rfl | h2
    · simp [defFileDescr] at hdt
    · rw [jsonDescrs_datatype h2] at hdt
      simp at hdt
  · exact List.mem_singleton.mp h1

lemma base_filter_partition (r : GoBytes) (m : List (String × GoBytes))
    (s : String) (p : Int) (e2 : Bool) (a : String) :
    ((defFileDescr r :: jsonDescrs m) ++ [partitionDescr s p e2 a]).filter
      (fun d => d.datatype == Datatype.partition) =
      [partitionDescr s p e2 a] := by
  simp [List.filter_append, List.filter_cons, defFileDescr, partitionDescr,
    jsonDescrs_filter_other]

lemma base_filter_crypto (r : GoBytes) (m : List (String × GoBytes))
    (s : String) (p : Int) (e2 : Bool) (a : String) :
    ((defFileDescr r :: jsonDescrs m) ++ [partitionDescr s p e2 a]).filter
      (fun d => d.datatype == Datatype.cryptoMessage) = [] := by
  simp [List.filter_append, List.filter_cons, defFileDescr, partitionDescr,
    jsonDescrs_filter_other]

lemma get_after (x y : DescriptorInput) (l1 l2 : List DescriptorInput) :
    ((x :: l1) ++ ([y] ++ l2))[l1.length + 1]? = some y := by
  rw [List.cons_append, List.getElem?_cons_succ,
    List.getElem?_append_right (le_refl l1.length)]
  simp

/-- C3: the crypto-message (encryption key blob) descriptor is present in
the assembled list iff encryption ran and key wrapping produced non-empty
data; the partition descriptor is unique, the key-blob descriptor is at
most one and its link is the one-based position of the partition
descriptor; and the partition's filesystem-type tag is the encrypted one
exactly when encryption ran. -/
theorem encryption_key_blob_iff (r : GoBytes) (m : List (String × GoBytes))
    (s : String) (p : Int) (e : Bool) (w : GoBytes) (a : String)
    (hw : wrapWellFormed w) :
    ((∃ d ∈ sifDescriptors r m s p e w a,
        d.datatype = Datatype.cryptoMessage) ↔ e = true ∧ 0 < goLen w) ∧
    ((sifDescriptors r m s p e w a).filter
        (fun d => d.datatype == Datatype.partition)).length = 1 ∧
    ((sifDescriptors r m s p e w a).filter
        (fun d => d.datatype == Datatype.cryptoMessage)).length ≤ 1 ∧
    (∀ d ∈ sifDescriptors r m s p e w a,
      d.datatype = Datatype.cryptoMessage →
        ∃ pd, (sifDescriptors r m s p e w a)[d.link - 1]? = some pd ∧
          pd.datatype = Datatype.partition) ∧
    (∀ d ∈ sifDescriptors r m s p e w a,
      d.datatype = Datatype.partition →
        d.extra = DescrExtra.part
          (if e then Fstype.encryptedSquashfs else Fstype.squash)
          Parttype.primSys a) := by
  cases e with
  | false =>
    have hout : sifDescriptors r m s p false w a =
        (defFileDescr r :: jsonDescrs m) ++ [partitionDescr s p false a] := by
      simp [sifDescriptors]
    rw [hout]
    refine ⟨?_, ?_, ?_, ?_, ?_⟩
    · constructor
      · rintro ⟨d, hd, hdt⟩
        exact absurd hdt (base_no_crypto hd)
      · rintro ⟨hfalse, _⟩
        cases hfalse
    · rw [base_filter_partition]
      rfl
    · rw [base_filter_crypto]
      simp
    · intro d hd hdt
      exact absurd hdt (base_no_crypto hd)
    · intro d hd hdt
      rw [base_partition_eq hd hdt]
      rfl
  | true =>
    rcases w with _ | dd
    · have hout : sifDescriptors r m s p true none a =
          (defFileDescr r :: jsonDescrs m) ++ [partitionDescr s p true a] := by
        simp [sifDescriptors]
      rw [hout]
      refine ⟨?_, ?_, ?_, ?_, ?_⟩
      · constructor
        · rintro ⟨d, hd, hdt⟩
          exact absurd hdt (base_no_crypto hd)
        · rintro ⟨_, hpos⟩
          simp [goLen] at hpos
      · rw [base_filter_partition]
        rfl
      · rw [base_filter_crypto]
        simp
      · intro d hd hdt
        exact absurd hdt (base_no_crypto hd)
      · intro d hd hdt
        rw [base_partition_eq hd hdt]
        rfl
    · have hddne : dd ≠ [] := fun hnil => hw (by rw [hnil])
      have hpos : 0 < goLen (some dd) := List.length_pos.mpr hddne
      have hout : sifDescriptors r m s p true (some dd) a =
          ((defFileDescr r :: jsonDescrs m) ++ [partitionDescr s p true a]) ++
            [cryptoDescr dd
              ((defFileDescr r :: jsonDescrs m) ++
                [partitionDescr s p true a]).length] := by
        simp [sifDescriptors]
      rw [hout]
      refine ⟨?_, ?_, ?_, ?_, ?_⟩
      · constructor
        · intro _
          exact ⟨rfl, hpos⟩
        · intro _
          exact ⟨cryptoDescr dd
            ((defFileDescr r :: jsonDescrs m) ++
              [partitionDescr s p true a]).length, by simp, rfl⟩
      · rw [List.filter_append, base_filter_partition]
        simp [cryptoDescr]
      · rw [List.filter_append, base_filter_crypto]
        simp [cryptoDescr]
      · intro d hd hdt
        rcases List.mem_append.mp hd with h1 | h1
        · exact absurd hdt (base_no_crypto h1)
        · have hdc := List.mem_singleton.mp h1
          subst hdc
          refine ⟨partitionDescr s p true a, ?_, rfl⟩
          have hidx : (cryptoDescr dd
              ((defFileDescr r :: jsonDescrs m) ++
                [partitionDescr s p true a]).length).link - 1 =
              (jsonDescrs m).length + 1 := by
            simp [cryptoDescr]
          rw [hidx, List.append_assoc]
          exact get_after _ _ _ _
      · intro d hd hdt
        rcases List.mem_append.mp hd with h1 | h1
        · rw [base_partition_eq h1 hdt]
          rfl
        · have hdc := List.mem_singleton.mp h1
          subst hdc
          simp [cryptoDescr] at hdt

/-- Witness for `encryption_key_blob_iff` at an encrypted run whose key
wrap yields a non-empty blob. -/
theorem encryption_key_blob_iff_witness :
    (∃ d ∈ sifDescriptors (some [1]) [] "sq" 4 true (some [9]) "amd64",
      d.datatype = Datatype.cryptoMessage) ∧
    ((sifDescriptors (some [1]) [] "sq" 4 true (some [9]) "amd64").filter
      (fun d => d.datatype == Datatype.partition)).length = 1 :=
  ⟨((encryption_key_blob_iff (some [1]) [] "sq" 4 true (some [9]) "amd64"
      (by unfold wrapWellFormed; decide)).1).mpr ⟨rfl, by decide⟩,
    (encryption_key_blob_iff (some [1]) [] "sq" 4 true (some [9]) "amd64"
      (by unfold wrapWellFormed; decide)).2.1⟩

/-- C7: the ownership finalizer yields no target (and no warning) when
`SUDO_COMMAND` does not match the pattern; yields no target when the
command matches but `SUDO_USER` is empty or the process is not root;
logs a warning and yields no target when `SUDO_UID` or `SUDO_GID` fails
to parse as an integer; and yields a target only when every check
passes, with exactly the parsed uid and gid. -/
theorem change_owner_decision (env : SudoEnv) (u : Nat) :
    (hasSubstr singularityPat env.sudoCommand.toList = false →
      changeOwner env u = (none, [])) ∧
    (hasSubstr singularityPat env.sudoCommand.toList = true →
      (env.sudoUser = "" ∨ u ≠ 0) → (changeOwner env u).1 = none) ∧
    (hasSubstr singularityPat env.sudoCommand.toList = true →
      env.sudoUser ≠ "" → u = 0 →
      (goAtoi env.sudoUid = none ∨ goAtoi env.sudoGid = none) →
      (changeOwner env u).1 = none ∧ (changeOwner env u).2 ≠ []) ∧
    (∀ t, (changeOwner env u).1 = some t →
      hasSubstr singularityPat env.sudoCommand.toList = true ∧
      env.sudoUser ≠ "" ∧ u = 0 ∧
      goAtoi env.sudoUid = some t.1 ∧ goAtoi env.sudoGid = some t.2) := by
  refine ⟨?_, ?_, ?_, ?_⟩
  · intro h
    unfold changeOwner
    rw [if_neg (by rw [h]; simp)]
  · intro hm hor
    unfold changeOwner
    rw [if_pos hm]
    unfold ownerAfterMatch
    rw [if_pos hor]
  · intro hm huser hu hatoi
    unfold changeOwner
    rw [if_pos hm]
    unfold ownerAfterMatch
    rw [if_neg (by simp [huser, hu])]
    by_cases hgu : env.sudoUid = "" ∨ env.sudoGid = ""
    · rw [if_pos hgu]
      exact ⟨rfl, by simp⟩
    · rw [if_neg hgu]
      rcases hA : goAtoi env.sudoUid with _ | uv
      · simp
      · rcases hB : goAtoi env.sudoGid with _ | gv
        · simp
        · rcases hatoi with h | h
          · rw [hA] at h
            exact absurd h (by simp)
          · rw [hB] at h
            exact absurd h (by simp)
  · intro t h
    unfold changeOwner at h
    by_cases hm : hasSubstr singularityPat env.sudoCommand.toList = true
    · rw [if_pos hm] at h
      unfold ownerAfterMatch at h
      by_cases h1 : env.sudoUser = "" ∨ u ≠ 0
      · rw [if_pos h1] at h
        simp at h
      · rw [if_neg h1] at h
        push_neg at h1
        by_cases h2 : env.sudoUid = "" ∨ env.sudoGid = ""
        · rw [if_pos h2] at h
          simp at h
        · rw [if_neg h2] at h
          rcases hA : goAtoi env.sudoUid with _ | uv
          · rw [hA] at h
            simp at h
          · rw [hA] at h
            rcases hB : goAtoi env.sudoGid with _ | gv
            · rw [hB] at h
              simp at h
            · rw [hB] at h
              simp at h
              refine ⟨hm, h1.1, h1.2, ?_, ?_⟩
              · rw [← h]
              · rw [← h]
    · rw [if_neg hm] at h
      simp at h

/-- Witness for `change_owner_decision`: matching command, root, but an
unparsable `SUDO_UID` gives no ownership change and a warning. -/
theorem change_owner_decision_witness :
    (changeOwner ⟨"sudo singularity build out.sif def", "alice", "abc",
      "1000"⟩ 0).1 = none ∧
    (changeOwner ⟨"sudo singularity build out.sif def", "alice", "abc",
      "1000"⟩ 0).2 ≠ [] :=
  (change_owner_decision ⟨"sudo singularity build out.sif def", "alice",
    "abc", "1000"⟩ 0).2.2.1 (by decide) (by decide) rfl (Or.inl (by decide))

/-- C8: the `-all-root` flag is in the mksquashfs flag list iff the
invoking process is not running as uid 0 (for parameter values that do
not themselves collide with the flag string). -/
theorem all_root_flag_iff (getuid : Nat) (gz : Bool) (mem : String)
    (procs : Nat) (hm : mem ≠ "-all-root")
    (hp : toString procs ≠ "-all-root") :
    ("-all-root" ∈ assembleFlags getuid gz mem procs) ↔ getuid ≠ 0 := by
  unfold assembleFlags
  split_ifs <;>
    simp_all [List.mem_append, Ne.symm hm, Ne.symm hp]

/-- Witness for `all_root_flag_iff`: a non-root uid gets the flag, uid 0
does not. -/
theorem all_root_flag_iff_witness :
    ("-all-root" ∈ assembleFlags 1000 true "2G" 4) ∧
    ("-all-root" ∉ assembleFlags 0 true "2G" 4) :=
  ⟨(all_root_flag_iff 1000 true "2G" 4 (by decide) (by decide)).mpr
      (by decide),
    fun h =>
      ((all_root_flag_iff 0 true "2G" 4 (by decide) (by decide)).mp h) rfl⟩

/-- C9: when detection yields no recognizable tag, resolution returns the
host architecture and reports the fallback, and a second resolution on
the same undetectable input returns the same value; resolution is a
total function, so it never fails. -/
theorem arch_fallback (detect1 detect2 : String → String)
    (goarch path : String) (h1 : detect1 path = "") (h2 : detect2 path = "") :
    resolveArch detect1 goarch path = (goarch, true) ∧
    resolveArch detect1 goarch path = resolveArch detect2 goarch path := by
  constructor <;> simp [resolveArch, h1, h2]

/-- Witness for `arch_fallback` with a detector that recognizes nothing. -/
theorem arch_fallback_witness :
    resolveArch (fun _ => "") "amd64" "/rootfs" = ("amd64", true) :=
  (arch_fallback (fun _ => "") (fun _ => "") "amd64" "/rootfs" rfl rfl).1

/-- C10: the program-name check of the ownership finalizer is an
unanchored substring match, so any `SUDO_COMMAND` containing
`singularity` anywhere passes it and the remaining checks are then
evaluated. -/
theorem sudo_command_substring (env : SudoEnv) (u : Nat)
    (h : hasSubstr singularityPat env.sudoCommand.toList = true) :
    changeOwner env u = ownerAfterMatch env u := by
  unfold changeOwner
  rw [if_pos h]

/-- Witness for `sudo_command_substring`: the substring appears inside an
argument of an unrelated command, yet the remaining checks run and an
ownership target is produced. -/
theorem sudo_command_substring_witness :
    changeOwner ⟨"sudo cp /tmp/singularity-backup.sif /root", "bob", "12",
        "34"⟩ 0 =
      ownerAfterMatch ⟨"sudo cp /tmp/singularity-backup.sif /root", "bob",
        "12", "34"⟩ 0 ∧
    (changeOwner ⟨"sudo cp /tmp/singularity-backup.sif /root", "bob", "12",
        "34"⟩ 0).1 = some (12, 34) :=
  ⟨sudo_command_substring ⟨"sudo cp /tmp/singularity-backup.sif /root",
      "bob", "12", "34"⟩ 0 (by decide), by decide⟩

end SifAssembler
